import Mathlib

/-!
Shallow embedding of the flight-agent scheduler (src/scheduler.py), the
date-pair generator (src/date_rules.py) and the Amadeus client
(src/search.py).  Python dicts holding offers are modelled by structures
covering exactly the fields the code reads; Python floats by rationals;
Python dates by a calendar triple together with the standard
days-from-civil conversion, so that datetime.timedelta arithmetic becomes
integer arithmetic on day numbers.
-/

namespace FlightAgent

/-! ## Calendar model (datetime.date) -/

/-- Calendar date, mirroring Python datetime.date fields. -/
structure Date where
  y : Int
  m : Int
  d : Int
deriving DecidableEq

/-- Day number of a civil date (days since 1970-01-01), the standard
days-from-civil algorithm with floor division.  Models the linear order
and timedelta arithmetic of datetime.date. -/
def daysFromCivil (dt : Date) : Int :=
  let y : Int := if dt.m ≤ 2 then dt.y - 1 else dt.y
  let era : Int := Int.fdiv y 400
  let yoe : Int := y - era * 400
  let mp : Int := Int.fmod (dt.m + 9) 12
  let doy : Int := Int.fdiv (153 * mp + 2) 5 + dt.d - 1
  let doe : Int := yoe * 365 + Int.fdiv yoe 4 - Int.fdiv yoe 100 + doy
  era * 146097 + doe - 719468

/-- Civil date of a day number (inverse of daysFromCivil), the standard
civil-from-days algorithm. -/
def civilFromDays (z0 : Int) : Date :=
  let z : Int := z0 + 719468
  let era : Int := Int.fdiv z 146097
  let doe : Int := z - era * 146097
  let yoe : Int := Int.fdiv (doe - Int.fdiv doe 1460 + Int.fdiv doe 36524 - Int.fdiv doe 146096) 365
  let y : Int := yoe + era * 400
  let doy : Int := doe - (365 * yoe + Int.fdiv yoe 4 - Int.fdiv yoe 100)
  let mp : Int := Int.fdiv (5 * doy + 2) 153
  let d : Int := doy - Int.fdiv (153 * mp + 2) 5 + 1
  let m : Int := if mp < 10 then mp + 3 else mp - 9
  ⟨if m ≤ 2 then y + 1 else y, m, d⟩

/-- Python date.weekday() on a day number: Monday = 0, Sunday = 6
(1970-01-01 was a Thursday, weekday 3). -/
def pyWeekday (n : Int) : Int :=
  Int.fmod (n + 3) 7

/-! ## Offer model and normalization (scheduler.py lines 258-342)

A raw Amadeus offer dict is modelled by the fields the scheduler reads:
the nested price object, validatingAirlineCodes (which the code accepts
as a list or a scalar string), and the itineraries list.  none on the
itineraries field models a value that is absent in a way the isinstance
check rejects; none on an itinerary segments field models a
non-list segments value, which contributes zero stops. -/

/-- Nested price object: grandTotal and total fields, already parsed. -/
structure PriceObj where
  grandTotal : Option ℚ
  total : Option ℚ
deriving DecidableEq

/-- The validatingAirlineCodes field: absent, a scalar string, or a list. -/
inductive VacField where
  | absent : VacField
  | scalar : String → VacField
  | codes : List String → VacField
deriving DecidableEq

/-- One itinerary; segments is none when the segments value is not a list. -/
structure Itin where
  segments : Option (List Unit)
deriving DecidableEq

/-- Raw offer, restricted to the fields the scheduler consumes. -/
structure RawOffer where
  price : Option PriceObj
  validatingAirlineCodes : VacField
  itineraries : Option (List Itin)
deriving DecidableEq

/-- extract_price_total: grandTotal first, then total (scheduler.py 258-271). -/
def extract_price_total (o : RawOffer) : Option ℚ :=
  match o.price.bind PriceObj.grandTotal with
  | some p => some p
  | none => o.price.bind PriceObj.total

/-- extract_carrier: first of a validating-carrier list, else a nonempty
scalar, else the "?" sentinel (scheduler.py 274-283). -/
def extract_carrier (o : RawOffer) : String :=
  match o.validatingAirlineCodes with
  | .codes (c :: _) => c
  | .codes [] => "?"
  | .scalar s => if s = "" then "?" else s
  | .absent => "?"

/-- extract_stops (scheduler.py 286-298): none when the itineraries list
is absent or empty, otherwise the SUM over itineraries of
max 0 (segment count - 1); a non-list segments value contributes 0. -/
def extract_stops (o : RawOffer) : Option Int :=
  match o.itineraries with
  | none => none
  | some [] => none
  | some itins =>
    some (itins.foldl
      (fun acc it =>
        match it.segments with
        | some segs => acc + (if (1 : Int) ≤ (segs.length : Int) then (segs.length : Int) - 1 else 0)
        | none => acc)
      0)

/-- OfferMeta (scheduler.py 301-305): an offer with the query dates. -/
structure OfferMeta where
  offer : RawOffer
  departure_date : String
  return_date : String
deriving DecidableEq

/-- Watch configuration consumed by pick_best_offer and the alert logic,
with values already passed through safe_float / int conversion. -/
structure Watch where
  max_stops : Option Int
  prefer_airlines : List String
  target_price_total : Option ℚ
  alert_drop_pct : Option ℚ
deriving DecidableEq

/-- A selection candidate: (om, price, carrier, stops) tuple of
pick_best_offer. -/
structure Cand where
  om : OfferMeta
  price : ℚ
  carrier : String
  stops : Option Int
deriving DecidableEq

/-- Candidate construction of pick_best_offer (scheduler.py 321-331):
offers without a price are dropped; offers whose KNOWN stop count
exceeds a configured max_stops are dropped; unknown stop counts pass. -/
def candidatesOf (offers : List OfferMeta) (watch : Watch) : List Cand :=
  offers.filterMap (fun om =>
    match extract_price_total om.offer with
    | none => none
    | some price =>
      let stops := extract_stops om.offer
      let keep : Bool :=
        match watch.max_stops, stops with
        | some ms, some st => decide (st ≤ ms)
        | _, _ => true
      if keep then some ⟨om, price, extract_carrier om.offer, stops⟩ else none)

/-- Leftmost minimum by price.  The code sorts the candidate list with a
stable sort keyed on price and takes the head, which is exactly the
first-encountered candidate of minimal price. -/
def leftmostMinByPrice : List Cand → Option Cand
  | [] => none
  | c :: cs =>
    match leftmostMinByPrice cs with
    | none => some c
    | some b => if b.price < c.price then some b else some c

/-- pick_best_offer (scheduler.py 308-342). -/
def pick_best_offer (offers : List OfferMeta) (watch : Watch) : Option Cand :=
  let candidates := candidatesOf offers watch
  let candidates :=
    if watch.prefer_airlines ≠ [] then
      let preferred := candidates.filter (fun c => watch.prefer_airlines.contains c.carrier)
      if preferred ≠ [] then preferred else candidates
    else candidates
  leftmostMinByPrice candidates

/-! ## Best map and alerts (scheduler.py 345-439)

build_best_and_alerts reads the previously persisted best file only to
feed the percent-drop alerts; the best_by_route map it returns is built
solely from the picks of the current run, and main (line 799) writes it
to best_offers.json as the complete new by_route content. -/

/-- Per-route record written into by_route.  The origin/destination/pax
identity fields of the Python payload are copied verbatim from the route
and are omitted here; note_no_offers models the presence of the
no_offers_after_filters note. -/
structure BestPayload where
  price_total : Option ℚ
  carrier : Option String
  stops : Option Int
  departure_date : Option String
  return_date : Option String
  note_no_offers : Bool
deriving DecidableEq

/-- Alert records appended by build_best_and_alerts. -/
inductive Alert where
  | targetPrice (route_id : String) (current target : ℚ)
  | dropPct (route_id : String) (current prevBest delta : ℚ)
deriving DecidableEq

/-- One base route: id plus watch configuration. -/
structure Route where
  id : String
  watch : Watch
deriving DecidableEq

/-- Target-price alert block (scheduler.py 400-415): fires when a target
is configured (is-not-None check) and price is at most the target. -/
def targetAlertFor (route_id : String) (target : Option ℚ) (price : ℚ) : List Alert :=
  match target with
  | some t => if price ≤ t then [.targetPrice route_id price t] else []
  | none => []

/-- Percent-drop alert block (scheduler.py 417-437).  The guard is the
Python truthiness test on both floats: a missing OR zero previous price,
and a missing OR zero configured percentage, produce no alert (and the
division is never reached, so no exception). -/
def dropAlertFor (route_id : String) (prevPrice dropPct : Option ℚ) (price : ℚ) :
    List Alert :=
  match prevPrice, dropPct with
  | some pp, some dp =>
    if pp ≠ 0 ∧ dp ≠ 0 then
      let delta := (pp - price) / pp * 100
      if dp ≤ delta then [.dropPct route_id price pp delta] else []
    else []
  | _, _ => []

/-- BestPayload written when no candidate survives (scheduler.py 369-383). -/
def noOffersPayload : BestPayload :=
  { price_total := none, carrier := none, stops := none
    departure_date := none, return_date := none, note_no_offers := true }

/-- BestPayload written for a successful pick (scheduler.py 385-398). -/
def pickPayload (c : Cand) : BestPayload :=
  { price_total := some c.price, carrier := some c.carrier, stops := c.stops
    departure_date := some c.om.departure_date, return_date := some c.om.return_date
    note_no_offers := false }

/-- Loop body of build_best_and_alerts for one base route
(scheduler.py 364-437). -/
def bbaStep (prevBest : String → Option ℚ) (offersByRoute : String → List OfferMeta)
    (acc : List (String × BestPayload) × List Alert) (base : Route) :
    List (String × BestPayload) × List Alert :=
  match pick_best_offer (offersByRoute base.id) base.watch with
  | none => (acc.1 ++ [(base.id, noOffersPayload)], acc.2)
  | some c =>
    (acc.1 ++ [(base.id, pickPayload c)],
     acc.2 ++ targetAlertFor base.id base.watch.target_price_total c.price
           ++ dropAlertFor base.id (prevBest base.id) base.watch.alert_drop_pct c.price)

/-- build_best_and_alerts (scheduler.py 355-439).  prevBest maps a
route id to the price_total of its previously persisted record
(safe_float of prev.get(route_id, \x7b\x7d).get("price_total")). -/
def build_best_and_alerts (prevBest : String → Option ℚ) (routes : List Route)
    (offersByRoute : String → List OfferMeta) :
    List (String × BestPayload) × List Alert :=
  routes.foldl (bbaStep prevBest offersByRoute) ([], [])

/-- Previous-best lookup derived from a persisted by_route list, as
load_prev_best plus the prev.get chain does. -/
def prevOf (file : List (String × BestPayload)) (id : String) : Option ℚ :=
  match file.lookup id with
  | some p => p.price_total
  | none => none

/-- One run of the best-file persistence: the new file content is the
by_route map of build_best_and_alerts; the prior file feeds only the
alerts (scheduler.py 798-799 rewrites BEST_FILE wholesale). -/
def runBestFile (prevFile : List (String × BestPayload)) (routes : List Route)
    (offersByRoute : String → List OfferMeta) : List (String × BestPayload) :=
  (build_best_and_alerts (prevOf prevFile) routes offersByRoute).1

/-- Successive runs: fold runBestFile over per-run offer maps, recording
the persisted file after each run. -/
def simulateRuns (routes : List Route) (init : List (String × BestPayload)) :
    List (String → List OfferMeta) → List (List (String × BestPayload))
  | [] => []
  | run :: rest =>
    let file := runBestFile init routes run
    file :: simulateRuns routes file rest

/-! ## Rule expanders (scheduler.py 445-526, date_rules.py 3-17)

Dates are day numbers (Int); the while loops become fuel-indexed
recursions, with the wrappers supplied enough fuel to cover every
terminating execution of the Python loop (span of the window plus the
pair cap). -/

/-- Rule parameters of expand_rome_15d_window after int()/parse_mm_dd. -/
structure RomeParams where
  trip_days : Int
  max_pairs : Int
  step_days : Int
  start_mm_dd : Int × Int
  latest_return_mm_dd : Int × Int
deriving DecidableEq

/-- Code defaults of the rule parameters (scheduler.py 462-467). -/
def defaultRomeParams : RomeParams :=
  { trip_days := 15, max_pairs := 2, step_days := 4
    start_mm_dd := (9, 1), latest_return_mm_dd := (10, 5) }

/-- Year selection of expand_rome_15d_window (scheduler.py 470): the
current year when the month of today is at most 10, else the next year. -/
def romeYear (today : Date) : Int :=
  if today.m ≤ 10 then today.y else today.y + 1

/-- Loop body of expand_rome_15d_window (scheduler.py 476-485): emit
(cur, cur + trip_days) while cur is at most max_dep and fewer than
max_pairs pairs were produced, advancing by step_days. -/
def romeLoop (trip step maxDep maxPairs : Int) :
    Nat → Int → List (Int × Int) → List (Int × Int)
  | 0, _, acc => acc
  | fuel + 1, cur, acc =>
    if cur ≤ maxDep ∧ (acc.length : Int) < maxPairs then
      romeLoop trip step maxDep maxPairs fuel (cur + step) (acc ++ [(cur, cur + trip)])
    else acc

/-- expand_rome_15d_window (scheduler.py 460-488), returning the emitted
(departure, return) day-number pairs. -/
def expand_rome_15d_window (rp : RomeParams) (today : Date) : List (Int × Int) :=
  let year := romeYear today
  let minDep := daysFromCivil ⟨year, rp.start_mm_dd.1, rp.start_mm_dd.2⟩
  let latestReturn := daysFromCivil ⟨year, rp.latest_return_mm_dd.1, rp.latest_return_mm_dd.2⟩
  let maxDep := latestReturn - rp.trip_days
  romeLoop rp.trip_days rp.step_days maxDep rp.max_pairs
    ((maxDep + 1 - minDep).toNat + rp.max_pairs.toNat + 1) minDep []

/-- Latest-return deadline used by the rule for a given today. -/
def romeDeadline (rp : RomeParams) (today : Date) : Int :=
  daysFromCivil ⟨romeYear today, rp.latest_return_mm_dd.1, rp.latest_return_mm_dd.2⟩

/-- generate_date_pairs loop (date_rules.py 8-16): step one day; keep the
pair only when return is within the deadline. -/
def gdpLoop (length deadline endB : Int) :
    Nat → Int → List (Int × Int) → List (Int × Int)
  | 0, _, acc => acc
  | fuel + 1, cur, acc =>
    if cur ≤ endB then
      gdpLoop length deadline endB fuel (cur + 1)
        (if cur + length ≤ deadline then acc ++ [(cur, cur + length)] else acc)
    else acc

/-- generate_date_pairs (date_rules.py 3-17) on day numbers. -/
def generate_date_pairs (start endB length deadline : Int) : List (Int × Int) :=
  gdpLoop length deadline endB ((endB + 1 - start).toNat + 1) start []

/-- Rule parameters of expand_weekend_window after int() conversion. -/
structure WeekendParams where
  start_offset_days : Int
  horizon_days : Int
  max_pairs : Int
  max_trip_len_days : Int
  depart_dows : List Int
  return_dows : List Int
deriving DecidableEq

/-- Inclusive day range, as daterange (scheduler.py 451-457). -/
def daterange (a b : Int) : List Int :=
  (List.range (b + 1 - a).toNat).map (fun i => a + Int.ofNat i)

/-- Inner scan of expand_weekend_window (scheduler.py 509-523): try trip
lengths d in order; break once the return passes the horizon end; emit a
pair for EVERY day whose weekday is allowed (the code has no break after
an emission); report stop = true when the pair cap is reached. -/
def weekendInner (endDay : Int) (retDows : List Int) (maxPairs : Int) (dep : Int) :
    List (Int × Int) → List Int → List (Int × Int) × Bool
  | acc, [] => (acc, false)
  | acc, d :: rest =>
    let ret := dep + d
    if endDay < ret then (acc, false)
    else if retDows.contains (pyWeekday ret) then
      let acc := acc ++ [(dep, ret)]
      if maxPairs ≤ (acc.length : Int) then (acc, true)
      else weekendInner endDay retDows maxPairs dep acc rest
    else weekendInner endDay retDows maxPairs dep acc rest

/-- Outer loop of expand_weekend_window (scheduler.py 505-523): keep only
departure days whose weekday is allowed; return early when the inner
scan reports the cap. -/
def weekendOuter (endDay : Int) (depDows retDows : List Int)
    (maxPairs maxTrip : Int) :
    List (Int × Int) → List Int → List (Int × Int)
  | acc, [] => acc
  | acc, dep :: rest =>
    if depDows.contains (pyWeekday dep) then
      match weekendInner endDay retDows maxPairs dep acc (daterange 1 maxTrip) with
      | (acc, true) => acc
      | (acc, false) => weekendOuter endDay depDows retDows maxPairs maxTrip acc rest
    else weekendOuter endDay depDows retDows maxPairs maxTrip acc rest

/-- expand_weekend_window (scheduler.py 491-526) on day numbers. -/
def expand_weekend_window (wp : WeekendParams) (today : Date) : List (Int × Int) :=
  let base := daysFromCivil today + wp.start_offset_days
  let endDay := base + wp.horizon_days
  weekendOuter endDay wp.depart_dows wp.return_dows wp.max_pairs
    wp.max_trip_len_days [] (daterange base endDay)

/-! ## request_with_retry (scheduler.py 152-187)

The response stream the network would deliver is an explicit list; the
function consumes one response per attempt.  Result: the returned
response (none only if the stream ran dry) paired with the list of sleep
durations performed, in order. -/

/-- One HTTP response: status, optional parsed Retry-After, abstract body. -/
structure HttpResp where
  status : Nat
  retryAfter : Option ℚ
  body : String
deriving DecidableEq

/-- Retryable statuses (scheduler.py 171): 429 or any 5xx. -/
def retryableStatus (s : Nat) : Bool :=
  s = 429 || (500 ≤ s && s ≤ 599)

/-- Attempt loop of request_with_retry: fuel is the remaining attempts of
range(1, retries + 1); delay starts at 1.0, a Retry-After hint raises it
to max(delay, hint), each retry sleeps delay then doubles it capped at
10.0; a success or a non-retryable status returns at once; exhausted
attempts return the last response. -/
def rwrGo (delay : ℚ) (sleeps : List ℚ) (last : Option HttpResp) :
    Nat → List HttpResp → Option HttpResp × List ℚ
  | 0, _ => (last, sleeps)
  | _ + 1, [] => (none, sleeps)
  | fuel + 1, r :: rest =>
    if r.status < 400 then (some r, sleeps)
    else if retryableStatus r.status then
      let delay := match r.retryAfter with
        | some ra => if delay ≤ ra then ra else delay
        | none => delay
      rwrGo (if delay * 2 ≤ 10 then delay * 2 else 10) (sleeps ++ [delay]) (some r) fuel rest
    else (some r, sleeps)

/-- request_with_retry (scheduler.py 152-187).  amadeus_search_offers
calls it with retries = 2 (scheduler.py 222), its default. -/
def request_with_retry (retries : Nat) (responses : List HttpResp) :
    Option HttpResp × List ℚ :=
  rwrGo 1 [] none retries responses

/-! ## Main orchestrator (scheduler.py 573-881)

The call loop (lines 688-793) is modelled as a fold over the per-instance
outcomes the upstream delivers; amadeus_search_offers is abstracted to
that outcome (a structured error carries its _status string; a success
carries the offer list).  After the loop, main always builds best map and
alerts from whatever was collected and writes all output files
(lines 795-843). -/

/-- Outcome of one amadeus_search_offers call. -/
inductive Outcome where
  | ok (offers : List RawOffer)
  | err (status : String)
deriving DecidableEq

/-- One expanded RouteInstance paired with the outcome its query yields. -/
structure CallItem where
  route_id : String
  departure_date : String
  return_date : String
  outcome : Outcome
deriving DecidableEq

/-- A history.jsonl line (scheduler.py 777-793), reduced to the fields
that vary per offer. -/
structure HistLine where
  route_key : String
  departure_date : String
  return_date : String
  offer : RawOffer
deriving DecidableEq

/-- Loop counters and accumulators of main. -/
structure LoopState where
  total_calls : Nat
  ok_calls : Nat
  err_calls : Nat
  empty_ok_calls : Nat
  offers_saved : Nat
  status_counts : List (String × Nat)
  consecutive_429 : Nat
  offersByRoute : String → List OfferMeta
  history : List HistLine

/-- status_counts[stc] = status_counts.get(stc, 0) + 1. -/
def bumpCount (m : List (String × Nat)) (k : String) : List (String × Nat) :=
  if m.any (fun p => p.1 = k) then
    m.map (fun p => if p.1 = k then (p.1, p.2 + 1) else p)
  else m ++ [(k, 1)]

/-- Initial loop state (scheduler.py 635-645). -/
def initLoopState : LoopState :=
  { total_calls := 0, ok_calls := 0, err_calls := 0, empty_ok_calls := 0
    offers_saved := 0, status_counts := [], consecutive_429 := 0
    offersByRoute := fun _ => [], history := [] }

/-- One iteration of the call loop (scheduler.py 688-793), without the
abort check: on an error, count it and update the consecutive-429
counter (incremented by a 429, reset by any OTHER error status; a
success leaves it untouched); on a success, record counters and, when
offers came back, append them to the per-route accumulator and to the
history log. -/
def loopStep (s : LoopState) (c : CallItem) : LoopState :=
  let s := { s with total_calls := s.total_calls + 1 }
  match c.outcome with
  | .err stc =>
    { s with
      err_calls := s.err_calls + 1
      status_counts := bumpCount s.status_counts stc
      consecutive_429 := if stc = "429" then s.consecutive_429 + 1 else 0 }
  | .ok offers =>
    let s := { s with ok_calls := s.ok_calls + 1 }
    if offers.isEmpty then
      { s with
        empty_ok_calls := s.empty_ok_calls + 1
        status_counts := bumpCount s.status_counts "200_empty" }
    else
      { s with
        offers_saved := s.offers_saved + offers.length
        offersByRoute := fun id =>
          if id = c.route_id then
            s.offersByRoute id
              ++ offers.map (fun o => ⟨o, c.departure_date, c.return_date⟩)
          else s.offersByRoute id
        history := s.history
          ++ offers.map (fun o => ⟨c.route_id, c.departure_date, c.return_date, o⟩) }

/-- The call loop with the early abort (scheduler.py 742-744): after
processing an ERROR outcome, break out of the loop as soon as the
consecutive-429 counter has reached the MAX_429_BEFORE_ABORT threshold.
The break check sits on the error branch only; success iterations never
abort. -/
def runLoop (th : Nat) (s : LoopState) : List CallItem → LoopState
  | [] => s
  | c :: rest =>
    let s2 := loopStep s c
    match c.outcome with
    | .err _ => if th ≤ s2.consecutive_429 then s2 else runLoop th s2 rest
    | .ok _ => runLoop th s2 rest

/-- The prefix of the instance list that the loop actually processes,
characterized directly: carry the consecutive-429 counter (c429), cut
right after the error that brings it up to the threshold. -/
def processedCalls (th : Nat) (c429 : Nat) : List CallItem → List CallItem
  | [] => []
  | c :: rest =>
    c :: match c.outcome with
      | .err stc =>
        let c2 := if stc = "429" then c429 + 1 else 0
        if th ≤ c2 then [] else processedCalls th c2 rest
      | .ok _ => processedCalls th c429 rest

/-- The persisted state.json counters (subset the claims touch). -/
structure StateFileRec where
  total_calls : Nat
  ok_calls : Nat
  err_calls : Nat
  empty_ok_calls : Nat
  offers_saved : Nat
  status_counts : List (String × Nat)
deriving DecidableEq

/-- Everything main persists, plus whether the run re-raised. -/
structure MainResult where
  best_by_route : List (String × BestPayload)
  alerts : List Alert
  stateFile : StateFileRec
  history : List HistLine
  raised : Option String
deriving DecidableEq

/-- State-file counters taken from a final loop state (scheduler.py
813-838). -/
def stateFileOf (s : LoopState) : StateFileRec :=
  { total_calls := s.total_calls, ok_calls := s.ok_calls
    err_calls := s.err_calls, empty_ok_calls := s.empty_ok_calls
    offers_saved := s.offers_saved, status_counts := s.status_counts }

/-- main (scheduler.py 573-881) from the token acquisition on.  On a
token failure (lines 648-680): write a best file with an EMPTY by_route
map (dropping whatever was persisted before -- write_json replaces the
file), an empty alerts file, a state file with total_calls 0,
err_calls 1 and status_counts containing only TOKEN_ERROR, then
re-raise.  On success: run the call loop with the abort threshold, then
always build best and alerts from the collected offers and write every
output file (lines 795-843). -/
def mainRun (tokenResult : Except String String) (th : Nat) (routes : List Route)
    (prevFile : List (String × BestPayload)) (calls : List CallItem) : MainResult :=
  match tokenResult with
  | .error e =>
    { best_by_route := []
      alerts := []
      stateFile :=
        { total_calls := 0, ok_calls := 0, err_calls := 1, empty_ok_calls := 0
          offers_saved := 0, status_counts := [("TOKEN_ERROR", 1)] }
      history := []
      raised := some e }
  | .ok _ =>
    let sF := runLoop th initLoopState calls
    let ba := build_best_and_alerts (prevOf prevFile) routes sF.offersByRoute
    { best_by_route := ba.1, alerts := ba.2, stateFile := stateFileOf sF
      history := sF.history, raised := none }

/-! ## AmadeusClient token lifecycle (search.py 95-125)

The client state carries the cached token and its expiry timestamp;
clientToken models _token against a token-endpoint response, also
reporting how many token requests it issued; flightOffersSearch models
one search call, also reporting token acquisitions and GET requests
performed. -/

/-- Token endpoint response body. -/
structure TokenResp where
  access_token : String
  expires_in : ℚ
deriving DecidableEq

/-- AmadeusClient dataclass fields (search.py 95-98). -/
structure ClientState where
  access_token : Option String
  token_expiry_ts : ℚ
deriving DecidableEq

/-- _token (search.py 100-118): reuse the cached token while it is a
truthy string and now is before expiry minus the 30 second margin;
otherwise POST for a fresh token, cache it with expiry now + expires_in.
Returns (token, new state, token requests issued). -/
def clientToken (now : ℚ) (tr : TokenResp) (st : ClientState) :
    String × ClientState × Nat :=
  match st.access_token with
  | some t =>
    if t ≠ "" ∧ now < st.token_expiry_ts - 30 then (t, st, 0)
    else (tr.access_token, ⟨some tr.access_token, now + tr.expires_in⟩, 1)
  | none => (tr.access_token, ⟨some tr.access_token, now + tr.expires_in⟩, 1)

/-- Search endpoint response. -/
structure SearchResp where
  status : Nat
  body : String
deriving DecidableEq

/-- flight_offers_search (search.py 120-125): resolve the token, issue
exactly one GET, raise (error) on any status of 400 and above -- the
cached token is NOT cleared and nothing is retried.  Returns
(result, state, token acquisitions, GET requests issued). -/
def flightOffersSearch (now : ℚ) (tr : TokenResp) (sr : SearchResp)
    (st : ClientState) : Except Nat String × ClientState × Nat × Nat :=
  let tks := clientToken now tr st
  if 400 ≤ sr.status then (.error sr.status, tks.2.1, tks.2.2, 1)
  else (.ok sr.body, tks.2.1, tks.2.2, 1)

/-! ## Claim-side definitions

The following definitions transcribe the wording of the spec claims (not
the code); each is compared against the corresponding embedded code
above. -/

/-- Transition rule of the BestPriceTracker claim: with no prior record
write the pick; with a prior record overwrite only when the new price is
lower, or the prior price was unknown and the new one known; a known
price is never overwritten by an unknown one.  prior is none when no
record exists, some p when a record with price p (possibly unknown)
exists. -/
def claimBestUpdate (prior : Option (Option ℚ)) (pick : Option ℚ) : Option ℚ :=
  match prior with
  | none => pick
  | some op =>
    match pick, op with
    | some np, some o => if np < o then some np else some o
    | some np, none => some np
    | none, o => o

/-- Tracked best after each run under the claim transition rule, fed one
pick per run. -/
def claimTracked (prior : Option (Option ℚ)) : List (Option ℚ) → List (Option ℚ)
  | [] => []
  | p :: rest =>
    let cur := claimBestUpdate prior p
    cur :: claimTracked (some cur) rest

/-- Circuit-breaker prefix under the claim wording: the counter is reset
by ANY non-429 outcome (successes included) and querying stops only once
the counter strictly EXCEEDS the threshold. -/
def claimProcessedCalls (th : Nat) (c429 : Nat) : List CallItem → List CallItem
  | [] => []
  | c :: rest =>
    c :: (let c2 := match c.outcome with
            | .err stc => if stc = "429" then c429 + 1 else 0
            | .ok _ => 0
          if th < c2 then [] else claimProcessedCalls th c2 rest)

/-- Percent-drop firing condition under the claim wording: a known
non-zero previous best and a configured percentage both exist, and the
percent delta reaches the configured percentage. -/
def claimDropFires (prevPrice dropPct : Option ℚ) (price : ℚ) : Prop :=
  ∃ pp dp, prevPrice = some pp ∧ pp ≠ 0 ∧ dropPct = some dp ∧
    dp ≤ (pp - price) / pp * 100

/-- Stop count under the claim wording: the maximum over itineraries of
segment count minus one, with the high sentinel 99 when itinerary or
segment data is absent or malformed. -/
def claimStopsMax (o : RawOffer) : Int :=
  match o.itineraries with
  | some (i :: is) =>
    (i :: is).foldl
      (fun acc it =>
        match it.segments with
        | some segs =>
          if acc ≤ (segs.length : Int) - 1 then (segs.length : Int) - 1 else acc
        | none => if acc ≤ 99 then 99 else acc)
      0
  | _ => 99

/-- Sum-of-clamped-stops specification matched by extract_stops. -/
def sumStops (l : List Itin) : Int :=
  l.foldl
    (fun acc it =>
      match it.segments with
      | some segs => acc + (if (1 : Int) ≤ (segs.length : Int) then (segs.length : Int) - 1 else 0)
      | none => acc)
    0

/-! ## Concrete fixtures used by counterexamples and witnesses -/

/-- Offer carrying a grandTotal price and one single-segment itinerary. -/
def offerAt (p : ℚ) : RawOffer :=
  { price := some { grandTotal := some p, total := none }
    validatingAirlineCodes := .codes ["AZ"]
    itineraries := some [⟨some [()]⟩] }

/-- Offer with no itineraries field usable (stop count unknown). -/
def offerNoItins (p : ℚ) : RawOffer :=
  { price := some { grandTotal := some p, total := none }
    validatingAirlineCodes := .codes ["AZ"]
    itineraries := none }

/-- Offer with two itineraries of three segments each. -/
def offerTwoByThree : RawOffer :=
  { price := some { grandTotal := some 800, total := none }
    validatingAirlineCodes := .codes ["AZ"]
    itineraries := some [⟨some [(), (), ()]⟩, ⟨some [(), (), ()]⟩] }

/-- Watch with nothing configured. -/
def watchNone : Watch :=
  { max_stops := none, prefer_airlines := [], target_price_total := none
    alert_drop_pct := none }

/-- Single monitored route used in run-sequence scenarios. -/
def routeR : Route := { id := "R", watch := watchNone }

/-- Per-run offer map delivering exactly one offer priced p. -/
def runWith (p : ℚ) : String → List OfferMeta :=
  fun _ => [⟨offerAt p, "2026-09-01", "2026-09-16"⟩]

/-- Price sequence of the BestPriceTracker scenario. -/
def priceSeq : List ℚ := [500, 700, 300, 300, 800]

/-- The persisted best price for route R after each of the five runs, as
the code produces it. -/
def codeTrackedSeq : List (Option ℚ) :=
  (simulateRuns [routeR] [] (priceSeq.map runWith)).map (fun f => prevOf f "R")

/-! ## Theorems -/

/-- C10: when the initial token acquisition fails, main still produces
its persisted outputs before re-raising, with an empty by_route map in
the best file (dropping every previously persisted record, whatever the
prior file held), and a state file with total_calls 0, err_calls 1 and
status_counts containing exactly TOKEN_ERROR mapped to 1. -/
theorem token_error_artifacts (e : String) (th : Nat) (routes : List Route)
    (prevFile : List (String × BestPayload)) (calls : List CallItem) :
    mainRun (.error e) th routes prevFile calls =
      { best_by_route := []
        alerts := []
        stateFile :=
          { total_calls := 0, ok_calls := 0, err_calls := 1, empty_ok_calls := 0
            offers_saved := 0, status_counts := [("TOKEN_ERROR", 1)] }
        history := []
        raised := some e } := rfl

/-- C9 counterexample: with a valid cached token "T" (expiry 1000,
now 0), a 401 from flight_offers_search is raised as an error while the
cached token is left in place, no new token is acquired, and exactly one
GET is issued -- the client does not clear the cache, does not
re-acquire credentials, and does not retry the call (which would take a
second GET). -/
theorem token_401_counterexample :
    flightOffersSearch 0 ⟨"NEW", 1799⟩ ⟨401, "denied"⟩ ⟨some "T", 1000⟩ =
      (.error 401, ⟨some "T", 1000⟩, 0, 1) ∧
    (some "T" : Option String) ≠ none ∧ (1 : Nat) ≠ 2 := by
  refine ⟨?_, by simp, by simp⟩
  have hT : ("T" : String) ≠ "" := by decide
  norm_num [flightOffersSearch, clientToken, hT]

/-- C9 amended: the client caches the bearer token and reuses it while
now is before expiry minus the 30 second safety margin, acquiring and
caching a fresh token otherwise; but a 401/403 (or any 4xx/5xx) from a
subsequent call is surfaced as an error after exactly one GET, without
clearing the cached token, without re-acquiring credentials and without
retrying; likewise the scheduler retry helper returns a 401 response
immediately with no retry. -/
theorem token_lifecycle_amended :
    (∀ (now : ℚ) (tr : TokenResp) (st : ClientState) (t : String),
      st.access_token = some t → t ≠ "" → now < st.token_expiry_ts - 30 →
      clientToken now tr st = (t, st, 0)) ∧
    (∀ (now : ℚ) (tr : TokenResp) (st : ClientState),
      st.access_token = none →
      clientToken now tr st =
        (tr.access_token, ⟨some tr.access_token, now + tr.expires_in⟩, 1)) ∧
    (∀ (now : ℚ) (tr : TokenResp) (sr : SearchResp) (st : ClientState),
      400 ≤ sr.status →
      flightOffersSearch now tr sr st =
        (.error sr.status, (clientToken now tr st).2.1, (clientToken now tr st).2.2, 1)) ∧
    (∀ (r : HttpResp) (rest : List HttpResp) (n : Nat), r.status = 401 →
      request_with_retry (n + 1) (r :: rest) = (some r, [])) := by
  refine ⟨?_, ?_, ?_, ?_⟩
  · intro now tr st t ht hne hlt
    simp [clientToken, ht, hne, hlt]
  · intro now tr st h
    simp [clientToken, h]
  · intro now tr sr st h
    simp [flightOffersSearch, h]
  · intro r rest n h
    simp [request_with_retry, rwrGo, retryableStatus, h]

/-- C9 amended, witness: the cached-token branch, the empty-cache
branch, the error surface on a 401 search response, and the immediate
401 return of the retry helper, each at concrete inputs. -/
theorem token_lifecycle_amended_witness :
    ((some "T" : Option String) = some "T" ∧ "T" ≠ "" ∧ (0 : ℚ) < 1000 - 30 ∧
      clientToken 0 ⟨"NEW", 1799⟩ ⟨some "T", 1000⟩ = ("T", ⟨some "T", 1000⟩, 0)) ∧
    ((none : Option String) = none ∧
      clientToken 7 ⟨"NEW", 1799⟩ ⟨none, 0⟩ = ("NEW", ⟨some "NEW", 7 + 1799⟩, 1)) ∧
    (400 ≤ 401 ∧
      flightOffersSearch 0 ⟨"NEW", 1799⟩ ⟨401, "denied"⟩ ⟨some "T", 1000⟩ =
        (.error 401,
         (clientToken 0 ⟨"NEW", 1799⟩ ⟨some "T", 1000⟩).2.1,
         (clientToken 0 ⟨"NEW", 1799⟩ ⟨some "T", 1000⟩).2.2, 1)) ∧
    ((401 : Nat) = 401 ∧
      request_with_retry 1 [⟨401, none, "denied"⟩] = (some ⟨401, none, "denied"⟩, [])) := by
  refine ⟨⟨rfl, by simp, by norm_num, ?_⟩, ⟨rfl, ?_⟩, ⟨by norm_num, ?_⟩, ⟨rfl, ?_⟩⟩
  · exact token_lifecycle_amended.1 0 ⟨"NEW", 1799⟩ ⟨some "T", 1000⟩ "T" rfl
      (by simp) (by norm_num)
  · exact token_lifecycle_amended.2.1 7 ⟨"NEW", 1799⟩ ⟨none, 0⟩ rfl
  · exact token_lifecycle_amended.2.2.1 0 ⟨"NEW", 1799⟩ ⟨401, "denied"⟩
      ⟨some "T", 1000⟩ (by norm_num)
  · exact token_lifecycle_amended.2.2.2 ⟨401, none, "denied"⟩ [] 0 rfl

/-- C3 counterexample: with the attempt budget the code actually uses
(retries = 2, the default, and the value amadeus_search_offers passes),
the response sequence [429, 429, 200] does NOT end with the 200 payload:
the two attempts both hit 429, both sleep (1.0 then the doubled 2.0),
and the second 429 response is returned. -/
theorem retry_budget_counterexample :
    request_with_retry 2 [⟨429, none, "a"⟩, ⟨429, none, "b"⟩, ⟨200, none, "ok"⟩]
      = (some ⟨429, none, "b"⟩, [1, 2]) ∧
    (some (⟨429, none, "b"⟩ : HttpResp) ≠ some ⟨200, none, "ok"⟩) := by
  constructor
  · norm_num [request_with_retry, rwrGo, retryableStatus]
  · simp

/-- C3 amended: the helper retries only on 429 or 5xx -- any success and
any other 4xx (404 in particular) is returned at once with no sleep; on
a retryable status it sleeps the current backoff delay raised to the
server Retry-After hint when one is present, doubling the delay up to
the 10 second cap, for at most the configured number of attempts
(2 in this client); so [429, 200] yields the 200 after one 1.0 second
sleep, [429 with hint 5, 200] yields the 200 after one 5 second sleep,
and [429, 429, 200] exhausts the budget and yields the second 429 after
two sleeps of 1.0 and 2.0 seconds. -/
theorem retry_policy_amended :
    (∀ (ra : Option ℚ) (b : String) (rest : List HttpResp) (n : Nat),
      request_with_retry (n + 1) (⟨404, ra, b⟩ :: rest) = (some ⟨404, ra, b⟩, [])) ∧
    (∀ (r : HttpResp) (rest : List HttpResp) (n : Nat), r.status < 400 →
      request_with_retry (n + 1) (r :: rest) = (some r, [])) ∧
    (∀ (r : HttpResp) (rest : List HttpResp) (n : Nat),
      400 ≤ r.status → retryableStatus r.status = false →
      request_with_retry (n + 1) (r :: rest) = (some r, [])) ∧
    request_with_retry 2 [⟨429, none, "a"⟩, ⟨200, none, "ok"⟩]
      = (some ⟨200, none, "ok"⟩, [1]) ∧
    request_with_retry 2 [⟨429, some 5, "a"⟩, ⟨200, none, "ok"⟩]
      = (some ⟨200, none, "ok"⟩, [5]) ∧
    request_with_retry 2 [⟨429, none, "a"⟩, ⟨429, none, "b"⟩, ⟨200, none, "ok"⟩]
      = (some ⟨429, none, "b"⟩, [1, 2]) := by
  refine ⟨?_, ?_, ?_, ?_, ?_, ?_⟩
  · intro ra b rest n
    simp [request_with_retry, rwrGo, retryableStatus]
  · intro r rest n h
    simp [request_with_retry, rwrGo, h]
  · intro r rest n h hr
    have h2 : ¬ r.status < 400 := by omega
    simp [request_with_retry, rwrGo, h2, hr]
  · norm_num [request_with_retry, rwrGo, retryableStatus]
  · norm_num [request_with_retry, rwrGo, retryableStatus]
  · norm_num [request_with_retry, rwrGo, retryableStatus]

/-- C3 amended, witness: the hypothesised parts at concrete inputs -- a
200 first response returns at once and a 404 (non-retryable) first
response returns at once. -/
theorem retry_policy_amended_witness :
    ((200 : Nat) < 400 ∧
      request_with_retry 1 [⟨200, none, "ok"⟩] = (some ⟨200, none, "ok"⟩, [])) ∧
    (400 ≤ (404 : Nat) ∧ retryableStatus 404 = false ∧
      request_with_retry 1 [⟨404, none, "nf"⟩] = (some ⟨404, none, "nf"⟩, [])) := by
  refine ⟨⟨by norm_num, ?_⟩, ⟨by norm_num, by decide, ?_⟩⟩
  · exact retry_policy_amended.2.1 ⟨200, none, "ok"⟩ [] 0 (by norm_num)
  · exact retry_policy_amended.2.2.1 ⟨404, none, "nf"⟩ [] 0 (by norm_num) (by decide)

/-- C8 counterexample: with a known non-zero previous best of 1000, a
CONFIGURED drop percentage that exists but equals 0, and a current price
of 900, the claim condition holds (both values exist, the 10 percent
delta is at least the configured 0), yet the code emits no alert: the
Python truthiness guard treats a configured 0.0 exactly like an absent
configuration. -/
theorem drop_pct_zero_counterexample :
    claimDropFires (some 1000) (some 0) 900 ∧
    dropAlertFor "R" (some 1000) (some 0) 900 = [] := by
  constructor
  · exact ⟨1000, 0, rfl, by norm_num, rfl, by norm_num⟩
  · norm_num [dropAlertFor]

/-- C8 amended: a DROP_PCT alert is emitted exactly when a known
non-zero previous best price and a configured NON-ZERO drop percentage
both exist and (previous - current) / previous * 100 is at least the
configured percentage; previous best 1000, current 850, configured 10
fires with delta 15; an absent or zero previous best produces no alert
(and the division is never evaluated, so no exception). -/
theorem drop_pct_amended :
    (∀ (rid : String) (prevP dropP : Option ℚ) (price : ℚ) (a : Alert),
      a ∈ dropAlertFor rid prevP dropP price ↔
        ∃ pp dp, prevP = some pp ∧ pp ≠ 0 ∧ dropP = some dp ∧ dp ≠ 0 ∧
          dp ≤ (pp - price) / pp * 100 ∧
          a = .dropPct rid price pp ((pp - price) / pp * 100)) ∧
    dropAlertFor "R" (some 1000) (some 10) 850 = [.dropPct "R" 850 1000 15] ∧
    (∀ (rid : String) (dropP : Option ℚ) (price : ℚ),
      dropAlertFor rid none dropP price = []) ∧
    (∀ (rid : String) (dropP : Option ℚ) (price : ℚ),
      dropAlertFor rid (some 0) dropP price = []) := by
  refine ⟨?_, ?_, ?_, ?_⟩
  · intro rid prevP dropP price a
    match prevP, dropP with
    | none, _ => simp [dropAlertFor]
    | some pp, none => simp [dropAlertFor]
    | some pp, some dp =>
      by_cases hpp : pp = 0
      · simp [dropAlertFor, hpp]
      · by_cases hdp : dp = 0
        · simp [dropAlertFor, hpp, hdp]
        · by_cases hle : dp ≤ (pp - price) / pp * 100
          · simp only [dropAlertFor, if_pos (And.intro hpp hdp), if_pos hle,
              List.mem_singleton]
            constructor
            · intro h
              exact ⟨pp, dp, rfl, hpp, rfl, hdp, hle, h⟩
            · rintro ⟨pp2, dp2, h1, h2, h3, h4, h5, h6⟩
              cases h1; cases h3; exact h6
          · simp only [dropAlertFor, if_pos (And.intro hpp hdp), if_neg hle,
              List.not_mem_nil, false_iff]
            rintro ⟨pp2, dp2, h1, h2, h3, h4, h5, h6⟩
            cases h1; cases h3; exact hle h5
  · have h15 : ((1000 : ℚ) - 850) / 1000 * 100 = 15 := by norm_num
    norm_num [dropAlertFor, h15]
  · intro rid dropP price
    cases dropP <;> simp [dropAlertFor]
  · intro rid dropP price
    cases dropP <;> simp [dropAlertFor]

/-- The by_route map that build_best_and_alerts produces never consults
the previously persisted best prices: the fold updates its first
component identically for any prevBest. -/
theorem bba_fst_ignores_prev (offersByRoute : String → List OfferMeta)
    (p1 p2 : String → Option ℚ) :
    ∀ (routes : List Route) (a1 a2 : List (String × BestPayload) × List Alert),
      a1.1 = a2.1 →
      (routes.foldl (bbaStep p1 offersByRoute) a1).1 =
      (routes.foldl (bbaStep p2 offersByRoute) a2).1 := by
  intro routes
  induction routes with
  | nil => intro a1 a2 h; simpa using h
  | cons base rest ih =>
    intro a1 a2 h
    simp only [List.foldl_cons]
    apply ih
    unfold bbaStep
    cases pick_best_offer (offersByRoute base.id) base.watch <;> simp [h]

/-- C1 counterexample: feeding the per-run price sequence
[500, 700, 300, 300, 800] for route R across five successive runs, the
code leaves tracked bests [500, 700, 300, 300, 800] -- run 2 overwrites
the stored 500 with the HIGHER 700 -- whereas the claimed transition
rule would leave [500, 500, 300, 300, 300]. -/
theorem bestfile_overwrite_counterexample :
    codeTrackedSeq = [some 500, some 700, some 300, some 300, some 800] ∧
    claimTracked none (priceSeq.map some) =
      [some 500, some 500, some 300, some 300, some 300] ∧
    codeTrackedSeq ≠ claimTracked none (priceSeq.map some) := by
  refine ⟨by decide, by decide, by decide⟩

/-- C1 amended: a run write unconditionally replaces every stored record
with the current pick -- the by_route map written is independent of the
previously persisted records (which feed only the alerts) -- so the
price sequence [500, 700, 300, 300, 800] leaves the tracked best at
[500, 700, 300, 300, 800] after each run. -/
theorem bestfile_unconditional_write :
    (∀ (prev1 prev2 : List (String × BestPayload)) (routes : List Route)
       (offers : String → List OfferMeta),
      runBestFile prev1 routes offers = runBestFile prev2 routes offers) ∧
    codeTrackedSeq = [some 500, some 700, some 300, some 300, some 800] := by
  constructor
  · intro prev1 prev2 routes offers
    exact bba_fst_ignores_prev offers (prevOf prev1) (prevOf prev2) routes ([], [])
      ([], []) rfl
  · decide

/-- C1 amended, witness: the independence part applied at concrete
prior files -- a prior record of 500 and a prior record of 10 for route
R produce the same written by_route map for the run that saw 700. -/
theorem bestfile_unconditional_write_witness :
    runBestFile [("R", pickPayload ⟨⟨offerAt 500, "d", "r"⟩, 500, "AZ", some 0⟩)]
        [routeR] (runWith 700) =
      runBestFile [("R", pickPayload ⟨⟨offerAt 10, "d", "r"⟩, 10, "AZ", some 0⟩)]
        [routeR] (runWith 700) :=
  bestfile_unconditional_write.1 _ _ [routeR] (runWith 700)

/-- A success iteration leaves the consecutive-429 counter untouched. -/
theorem loopStep_ok_c429 (s : LoopState) (rid d r : String) (offers : List RawOffer) :
    (loopStep s ⟨rid, d, r, .ok offers⟩).consecutive_429 = s.consecutive_429 := by
  unfold loopStep
  by_cases h : offers.isEmpty <;> simp [h]

/-- An error iteration bumps the counter on a 429 status and resets it
on any other error status. -/
theorem loopStep_err_c429 (s : LoopState) (rid d r stc : String) :
    (loopStep s ⟨rid, d, r, .err stc⟩).consecutive_429 =
      if stc = "429" then s.consecutive_429 + 1 else 0 := rfl

/-- The abort in the call loop is exactly a truncation of the input:
running the loop with the break equals folding the plain per-call step
over processedCalls, the prefix cut right after the error that lifts
the consecutive-429 counter to the threshold. -/
theorem runLoop_eq_foldl (th : Nat) :
    ∀ (calls : List CallItem) (s : LoopState),
      runLoop th s calls =
        List.foldl loopStep s (processedCalls th s.consecutive_429 calls) := by
  intro calls
  induction calls with
  | nil => intro s; rfl
  | cons c rest ih =>
    intro s
    match hc : c.outcome with
    | .ok offers =>
      obtain ⟨rid, d, r, o⟩ := c
      cases hc
      simp only [runLoop, processedCalls, List.foldl_cons]
      rw [ih, loopStep_ok_c429]
    | .err stc =>
      obtain ⟨rid, d, r, o⟩ := c
      cases hc
      simp only [runLoop, processedCalls, List.foldl_cons, loopStep_err_c429]
      by_cases hth : th ≤ if stc = "429" then s.consecutive_429 + 1 else 0
      · simp [hth]
      · simp only [if_neg hth]
        rw [ih, loopStep_err_c429]

/-- C2 counterexample: outcomes [429, success, 429, success] with
threshold 2.  The code never resets the counter on a success, so the
third call lifts it to 2, reaching (not strictly exceeding) the
threshold and aborting: only 3 instances are queried.  Under the claim
wording (counter reset by any non-429 outcome, abort only once the
counter exceeds the threshold) all 4 instances would be queried. -/
theorem circuit_breaker_counterexample :
    (mainRun (.ok "tok") 2 [routeR] []
      [⟨"R", "d", "r", .err "429"⟩, ⟨"R", "d", "r", .ok []⟩,
       ⟨"R", "d", "r", .err "429"⟩, ⟨"R", "d", "r", .ok [offerAt 100]⟩]).stateFile.total_calls
      = 3 ∧
    (claimProcessedCalls 2 0
      [⟨"R", "d", "r", .err "429"⟩, ⟨"R", "d", "r", .ok []⟩,
       ⟨"R", "d", "r", .err "429"⟩, ⟨"R", "d", "r", .ok [offerAt 100]⟩]).length = 4 ∧
    (3 : Nat) ≠ 4 := by
  refine ⟨by decide, by decide, by decide⟩

/-- C2 amended: one consecutive-429 counter is tracked across all
instances of the invocation, incremented by each 429 error, reset by any
non-429 ERROR but left unchanged by a success, and the run aborts as
soon as the counter REACHES the threshold; the artifacts then persisted
(best map, alerts, state counters, history lines) are exactly those of
the processed prefix of the instance list. -/
theorem circuit_breaker_truncation (tok : String) (th : Nat) (routes : List Route)
    (prevFile : List (String × BestPayload)) (calls : List CallItem) :
    mainRun (.ok tok) th routes prevFile calls =
      (let sF := List.foldl loopStep initLoopState (processedCalls th 0 calls)
       let ba := build_best_and_alerts (prevOf prevFile) routes sF.offersByRoute
       { best_by_route := ba.1, alerts := ba.2, stateFile := stateFileOf sF
         history := sF.history, raised := none }) := by
  unfold mainRun
  rw [runLoop_eq_foldl]
  rfl

/-- C4 counterexample: for an offer with two itineraries of three
segments each the code computes 2 + 2 = 4 stops (a SUM over
itineraries), not the claimed maximum 2; an offer with no usable
itinerary data gets stop count none, not the claimed sentinel 99; and
such an unknown-stops offer is NOT excluded by a configured max-stops
filter: with max_stops 0 it is still selected by pick_best_offer. -/
theorem stops_counterexample :
    extract_stops offerTwoByThree = some 4 ∧
    claimStopsMax offerTwoByThree = 2 ∧
    (some (4 : Int) ≠ some (2 : Int)) ∧
    extract_stops (offerNoItins 100) = none ∧
    ((none : Option Int) ≠ some 99) ∧
    pick_best_offer [⟨offerNoItins 100, "d", "r"⟩] { watchNone with max_stops := some 0 }
      = some ⟨⟨offerNoItins 100, "d", "r"⟩, 100, "AZ", none⟩ := by
  refine ⟨by decide, by decide, by decide, by decide, by decide, by decide⟩

/-- C4 amended: the normalized stop count is the SUM over itineraries of
max 0 (segment_count - 1) when the itineraries list is present and
non-empty, and none when it is absent, malformed or empty; offers with
unknown stop count are NOT excluded by the max-stops filter (the filter
drops only candidates whose known stop count exceeds the ceiling), and
the selection ranks by price alone. -/
theorem stops_sum_amended :
    (∀ (o : RawOffer) (n : Int),
      extract_stops o = some n ↔
        ∃ l, o.itineraries = some l ∧ l ≠ [] ∧ n = sumStops l) ∧
    (∀ (offers : List OfferMeta) (watch : Watch) (om : OfferMeta) (p : ℚ),
      om ∈ offers → extract_price_total om.offer = some p →
      extract_stops om.offer = none →
      (⟨om, p, extract_carrier om.offer, none⟩ : Cand) ∈ candidatesOf offers watch) := by
  constructor
  · intro o n
    match h : o.itineraries with
    | none => simp [extract_stops, h]
    | some [] => simp [extract_stops, h]
    | some (i :: is) =>
      simp only [extract_stops, h, Option.some_inj]
      constructor
      · intro hn
        exact ⟨i :: is, rfl, by simp, hn.symm⟩
      · rintro ⟨l, hl, hne, hsum⟩
        cases hl
        exact hsum.symm
  · intro offers watch om p hmem hp hs
    unfold candidatesOf
    apply List.mem_filterMap.mpr
    refine ⟨om, hmem, ?_⟩
    rw [hp, hs]
    cases watch.max_stops <;> simp

/-- C4 amended, witness: the sum characterization at the two-itinerary
offer and the filter transparency at the unknown-stops offer with a
configured max_stops of 0. -/
theorem stops_sum_amended_witness :
    (extract_stops offerTwoByThree = some 4 ∧
      ∃ l, offerTwoByThree.itineraries = some l ∧ l ≠ [] ∧ (4 : Int) = sumStops l) ∧
    ((⟨offerNoItins 100, "d", "r"⟩ : OfferMeta) ∈ [(⟨offerNoItins 100, "d", "r"⟩ : OfferMeta)] ∧
      extract_price_total (offerNoItins 100) = some 100 ∧
      extract_stops (offerNoItins 100) = none ∧
      (⟨⟨offerNoItins 100, "d", "r"⟩, 100, "AZ", none⟩ : Cand) ∈
        candidatesOf [⟨offerNoItins 100, "d", "r"⟩] { watchNone with max_stops := some 0 }) := by
  refine ⟨⟨by decide, ?_⟩, ⟨by decide, by decide, by decide, ?_⟩⟩
  · exact (stops_sum_amended.1 offerTwoByThree 4).mp (by decide)
  · exact stops_sum_amended.2 [⟨offerNoItins 100, "d", "r"⟩]
      { watchNone with max_stops := some 0 } ⟨offerNoItins 100, "d", "r"⟩ 100
      (by decide) (by decide) (by decide)

/-- Invariant of the expand_rome_15d_window loop: every emitted pair has
return = departure + trip_days with departure bounded by max_dep. -/
theorem romeLoop_inv (trip step maxDep maxPairs : Int) :
    ∀ (fuel : Nat) (cur : Int) (acc : List (Int × Int)),
      (∀ p ∈ acc, p.2 = p.1 + trip ∧ p.1 ≤ maxDep) →
      ∀ p ∈ romeLoop trip step maxDep maxPairs fuel cur acc,
        p.2 = p.1 + trip ∧ p.1 ≤ maxDep := by
  intro fuel
  induction fuel with
  | zero => intro cur acc hacc; simpa [romeLoop] using hacc
  | succ n ih =>
    intro cur acc hacc p
    unfold romeLoop
    by_cases hc : cur ≤ maxDep ∧ (acc.length : Int) < maxPairs
    · rw [if_pos hc]
      apply ih
      intro q hq
      rcases List.mem_append.mp hq with h | h
      · exact hacc q h
      · rcases List.mem_singleton.mp h with rfl
        exact ⟨rfl, hc.1⟩
    · rw [if_neg hc]
      exact hacc p

/-- Invariant of the generate_date_pairs loop: every kept pair has
return = departure + length and return within the deadline. -/
theorem gdpLoop_inv (length deadline endB : Int) :
    ∀ (fuel : Nat) (cur : Int) (acc : List (Int × Int)),
      (∀ p ∈ acc, p.2 = p.1 + length ∧ p.2 ≤ deadline) →
      ∀ p ∈ gdpLoop length deadline endB fuel cur acc,
        p.2 = p.1 + length ∧ p.2 ≤ deadline := by
  intro fuel
  induction fuel with
  | zero => intro cur acc hacc; simpa [gdpLoop] using hacc
  | succ n ih =>
    intro cur acc hacc p
    unfold gdpLoop
    by_cases hc : cur ≤ endB
    · rw [if_pos hc]
      apply ih
      intro q hq
      by_cases hk : cur + length ≤ deadline
      · rw [if_pos hk] at hq
        rcases List.mem_append.mp hq with h | h
        · exact hacc q h
        · rcases List.mem_singleton.mp h with rfl
          exact ⟨rfl, hk⟩
      · rw [if_neg hk] at hq
        exact hacc q hq
    · rw [if_neg hc]
      exact hacc p

/-- C5: every RouteInstance emitted by the windowed-trip rule satisfies
return = departure + trip length and return within the latest-return
deadline; the same holds for every pair kept by generate_date_pairs. -/
theorem windowed_trip_invariant :
    (∀ (rp : RomeParams) (today : Date) (p : Int × Int),
      p ∈ expand_rome_15d_window rp today →
      p.2 = p.1 + rp.trip_days ∧ p.2 ≤ romeDeadline rp today) ∧
    (∀ (start endB length deadline : Int) (q : Int × Int),
      q ∈ generate_date_pairs start endB length deadline →
      q.2 = q.1 + length ∧ q.2 ≤ deadline) := by
  constructor
  · intro rp today p hp
    have h := romeLoop_inv rp.trip_days rp.step_days
      (romeDeadline rp today - rp.trip_days) rp.max_pairs _ _ []
      (by intro q hq; exact absurd hq (List.not_mem_nil q)) p hp
    exact ⟨h.1, by omega⟩
  · intro start endB length deadline q hq
    exact gdpLoop_inv length deadline endB _ _ []
      (by intro r hr; exact absurd hr (List.not_mem_nil r)) q hq

/-- C5 witness: at the default rule parameters with today 2026-01-15 the
first emitted pair departs 2026-09-01 and returns 2026-09-16, within the
2026-10-05 deadline, and the pair (0, 5) kept by generate_date_pairs
0..3 with length 5 and deadline 10 satisfies both properties. -/
theorem windowed_trip_invariant_witness :
    ((daysFromCivil ⟨2026, 9, 1⟩, daysFromCivil ⟨2026, 9, 16⟩) ∈
        expand_rome_15d_window defaultRomeParams ⟨2026, 1, 15⟩ ∧
      (daysFromCivil ⟨2026, 9, 16⟩ : Int) =
        daysFromCivil ⟨2026, 9, 1⟩ + defaultRomeParams.trip_days ∧
      (daysFromCivil ⟨2026, 9, 16⟩ : Int) ≤
        romeDeadline defaultRomeParams ⟨2026, 1, 15⟩) ∧
    (((0 : Int), (5 : Int)) ∈ generate_date_pairs 0 3 5 10 ∧
      ((5 : Int) = 0 + 5 ∧ (5 : Int) ≤ 10)) := by
  constructor
  · have hm : (daysFromCivil ⟨2026, 9, 1⟩, daysFromCivil ⟨2026, 9, 16⟩) ∈
        expand_rome_15d_window defaultRomeParams ⟨2026, 1, 15⟩ := by decide
    exact ⟨hm, windowed_trip_invariant.1 defaultRomeParams ⟨2026, 1, 15⟩ _ hm⟩
  · have hm : ((0 : Int), (5 : Int)) ∈ generate_date_pairs 0 3 5 10 := by decide
    exact ⟨hm, windowed_trip_invariant.2 0 3 5 10 _ hm⟩

/-- C6 counterexample: with the default rule parameters (deadline
October 5) and today 2026-10-06 -- past the current-year deadline -- the
expansion still uses the 2026 window: it emits departures 2026-09-01 and
2026-09-05 (already in the past), whose year is 2026, not the following
year 2027. -/
theorem rome_rollover_counterexample :
    romeDeadline defaultRomeParams ⟨2026, 10, 6⟩ < daysFromCivil ⟨2026, 10, 6⟩ ∧
    expand_rome_15d_window defaultRomeParams ⟨2026, 10, 6⟩ =
      [(daysFromCivil ⟨2026, 9, 1⟩, daysFromCivil ⟨2026, 9, 16⟩),
       (daysFromCivil ⟨2026, 9, 5⟩, daysFromCivil ⟨2026, 9, 20⟩)] ∧
    (civilFromDays (daysFromCivil ⟨2026, 9, 1⟩)).y = 2026 ∧
    ((2026 : Int) ≠ 2027) := by
  refine ⟨by decide, by decide, by decide, by decide⟩

/-- C6 amended: the window rolls to the next year based solely on the
MONTH of today -- the next year is used exactly when the month is past
October, regardless of the configured latest-return deadline -- so with
the default parameters today 2026-10-06 (past the October 5 deadline but
still in October) keeps the 2026 window, while today 2026-11-03 produces
the 2027 window. -/
theorem rome_rollover_month_rule :
    (∀ t : Date, romeYear t = t.y + 1 ↔ 10 < t.m) ∧
    expand_rome_15d_window defaultRomeParams ⟨2026, 10, 6⟩ =
      [(daysFromCivil ⟨2026, 9, 1⟩, daysFromCivil ⟨2026, 9, 16⟩),
       (daysFromCivil ⟨2026, 9, 5⟩, daysFromCivil ⟨2026, 9, 20⟩)] ∧
    expand_rome_15d_window defaultRomeParams ⟨2026, 11, 3⟩ =
      [(daysFromCivil ⟨2027, 9, 1⟩, daysFromCivil ⟨2027, 9, 16⟩),
       (daysFromCivil ⟨2027, 9, 5⟩, daysFromCivil ⟨2027, 9, 20⟩)] := by
  refine ⟨?_, by decide, by decide⟩
  intro t
  unfold romeYear
  by_cases h : t.m ≤ 10
  · rw [if_pos h]
    constructor
    · intro he; omega
    · intro hm; omega
  · rw [if_neg h]
    constructor
    · intro _; omega
    · intro _; rfl

/-- Members of an inclusive day range are at least the lower bound. -/
theorem daterange_mem_ge (a b d : Int) (h : d ∈ daterange a b) : a ≤ d := by
  unfold daterange at h
  rcases List.mem_map.mp h with ⟨i, _, rfl⟩
  simp only [Int.ofNat_eq_natCast]
  omega

/-- Invariant of the inner weekend scan: with a departure day whose
weekday is allowed and trip lengths at least one, every pair in the
result has an allowed departure weekday, an allowed return weekday, and
a strictly later return. -/
theorem weekendInner_inv (endDay : Int) (depDows retDows : List Int)
    (maxPairs dep : Int) (hdep : depDows.contains (pyWeekday dep) = true) :
    ∀ (ds : List Int) (acc : List (Int × Int)),
      (∀ d ∈ ds, 1 ≤ d) →
      (∀ p ∈ acc, depDows.contains (pyWeekday p.1) = true ∧
        retDows.contains (pyWeekday p.2) = true ∧ p.1 < p.2) →
      ∀ p ∈ (weekendInner endDay retDows maxPairs dep acc ds).1,
        depDows.contains (pyWeekday p.1) = true ∧
        retDows.contains (pyWeekday p.2) = true ∧ p.1 < p.2 := by
  intro ds
  induction ds with
  | nil => intro acc _ hacc; simpa [weekendInner] using hacc
  | cons d rest ih =>
    intro acc hds hacc p
    unfold weekendInner
    by_cases h1 : endDay < dep + d
    · rw [if_pos h1]
      exact hacc p
    · rw [if_neg h1]
      by_cases h2 : retDows.contains (pyWeekday (dep + d)) = true
      · simp only [h2, if_true]
        have hnew : ∀ q ∈ acc ++ [(dep, dep + d)],
            depDows.contains (pyWeekday q.1) = true ∧
            retDows.contains (pyWeekday q.2) = true ∧ q.1 < q.2 := by
          intro q hq
          rcases List.mem_append.mp hq with h | h
          · exact hacc q h
          · rcases List.mem_singleton.mp h with rfl
            refine ⟨hdep, h2, ?_⟩
            have := hds d (by simp)
            omega
        by_cases h3 : maxPairs ≤ ((acc ++ [(dep, dep + d)]).length : Int)
        · rw [if_pos h3]
          exact hnew p
        · rw [if_neg h3]
          exact ih (acc ++ [(dep, dep + d)])
            (fun x hx => hds x (by simp [hx])) hnew p
      · simp only [h2, if_false]
        exact ih acc (fun x hx => hds x (by simp [hx])) hacc p

/-- Invariant of the outer weekend loop. -/
theorem weekendOuter_inv (endDay : Int) (depDows retDows : List Int)
    (maxPairs maxTrip : Int) :
    ∀ (days : List Int) (acc : List (Int × Int)),
      (∀ p ∈ acc, depDows.contains (pyWeekday p.1) = true ∧
        retDows.contains (pyWeekday p.2) = true ∧ p.1 < p.2) →
      ∀ p ∈ weekendOuter endDay depDows retDows maxPairs maxTrip acc days,
        depDows.contains (pyWeekday p.1) = true ∧
        retDows.contains (pyWeekday p.2) = true ∧ p.1 < p.2 := by
  intro days
  induction days with
  | nil => intro acc hacc; simpa [weekendOuter] using hacc
  | cons dep rest ih =>
    intro acc hacc p
    unfold weekendOuter
    by_cases h1 : depDows.contains (pyWeekday dep) = true
    · simp only [h1, if_true]
      have hinner := weekendInner_inv endDay depDows retDows maxPairs dep h1
        (daterange 1 maxTrip) acc
        (fun d hd => daterange_mem_ge 1 maxTrip d hd) hacc
      rcases hres : weekendInner endDay retDows maxPairs dep acc (daterange 1 maxTrip)
        with ⟨acc2, b⟩
      rw [hres] at hinner
      cases b
      · exact fun hp => ih acc2 hinner p hp
      · exact fun hp => hinner p hp
    · simp only [h1, if_false]
      exact ih acc hacc p

/-- Cap bound of the inner weekend scan: entering with fewer pairs than
the cap, a stopping result has at most maxPairs pairs and a continuing
result still has fewer than maxPairs. -/
theorem weekendInner_len (endDay : Int) (retDows : List Int) (maxPairs dep : Int) :
    ∀ (ds : List Int) (acc : List (Int × Int)),
      (acc.length : Int) < maxPairs →
      (((weekendInner endDay retDows maxPairs dep acc ds).2 = true →
        ((weekendInner endDay retDows maxPairs dep acc ds).1.length : Int) ≤ maxPairs) ∧
       ((weekendInner endDay retDows maxPairs dep acc ds).2 = false →
        ((weekendInner endDay retDows maxPairs dep acc ds).1.length : Int) < maxPairs)) := by
  intro ds
  induction ds with
  | nil =>
    intro acc hacc
    constructor
    · intro h; simp [weekendInner] at h
    · intro _; simpa [weekendInner] using hacc
  | cons d rest ih =>
    intro acc hacc
    unfold weekendInner
    by_cases h1 : endDay < dep + d
    · rw [if_pos h1]
      exact ⟨fun h => by simp at h, fun _ => hacc⟩
    · rw [if_neg h1]
      by_cases h2 : retDows.contains (pyWeekday (dep + d)) = true
      · simp only [h2, if_true]
        by_cases h3 : maxPairs ≤ ((acc ++ [(dep, dep + d)]).length : Int)
        · rw [if_pos h3]
          refine ⟨fun _ => ?_, fun h => by simp at h⟩
          simp only [List.length_append, List.length_singleton]
          push_cast
          omega
        · rw [if_neg h3]
          exact ih (acc ++ [(dep, dep + d)]) (by omega)
      · simp only [h2, if_false]
        exact ih acc hacc

/-- Cap bound of the outer weekend loop. -/
theorem weekendOuter_len (endDay : Int) (depDows retDows : List Int)
    (maxPairs maxTrip : Int) :
    ∀ (days : List Int) (acc : List (Int × Int)),
      (acc.length : Int) < maxPairs →
      ((weekendOuter endDay depDows retDows maxPairs maxTrip acc days).length : Int)
        ≤ maxPairs := by
  intro days
  induction days with
  | nil =>
    intro acc hacc
    simp only [weekendOuter]
    omega
  | cons dep rest ih =>
    intro acc hacc
    unfold weekendOuter
    by_cases h1 : depDows.contains (pyWeekday dep) = true
    · simp only [h1, if_true]
      have hlen := weekendInner_len endDay retDows maxPairs dep
        (daterange 1 maxTrip) acc hacc
      rcases hres : weekendInner endDay retDows maxPairs dep acc (daterange 1 maxTrip)
        with ⟨acc2, b⟩
      rw [hres] at hlen
      cases b
      · exact ih acc2 (hlen.2 rfl)
      · exact hlen.1 rfl
    · simp only [h1, if_false]
      exact ih acc hacc

/-- C7 counterexample: with departure weekday Friday, return weekdays
Sunday and Monday, max trip length 4 and cap 6, starting Thursday
2026-01-01 with a 7-day horizon, the expansion emits TWO pairs for the
single Friday 2026-01-02 (returns Sunday 2026-01-04 and Monday
2026-01-05): the scan does not stop at the first allowed return day, so
a departure day can yield more than one pair. -/
theorem weekend_first_return_counterexample :
    expand_weekend_window ⟨0, 7, 6, 4, [4], [6, 0]⟩ ⟨2026, 1, 1⟩ =
      [(daysFromCivil ⟨2026, 1, 2⟩, daysFromCivil ⟨2026, 1, 4⟩),
       (daysFromCivil ⟨2026, 1, 2⟩, daysFromCivil ⟨2026, 1, 5⟩)] ∧
    ¬ ((expand_weekend_window ⟨0, 7, 6, 4, [4], [6, 0]⟩ ⟨2026, 1, 1⟩).map
        Prod.fst).Nodup := by
  refine ⟨by decide, by decide⟩

/-- C7 amended: every emitted pair has its departure weekday in the
allowed departure set, its return weekday in the allowed return set,
and a return strictly after the departure; the forward scan emits a pair
for EVERY allowed return day within the trip-length range (possibly
several per departure day), and production stops as soon as the
max-pairs cap is reached, so with a positive cap at most max_pairs pairs
are produced. -/
theorem weekend_invariants :
    (∀ (wp : WeekendParams) (today : Date) (p : Int × Int),
      p ∈ expand_weekend_window wp today →
      wp.depart_dows.contains (pyWeekday p.1) = true ∧
      wp.return_dows.contains (pyWeekday p.2) = true ∧ p.1 < p.2) ∧
    (∀ (wp : WeekendParams) (today : Date), 1 ≤ wp.max_pairs →
      ((expand_weekend_window wp today).length : Int) ≤ wp.max_pairs) := by
  constructor
  · intro wp today p hp
    exact weekendOuter_inv _ wp.depart_dows wp.return_dows wp.max_pairs
      wp.max_trip_len_days _ []
      (fun q hq => absurd hq (List.not_mem_nil q)) p hp
  · intro wp today h
    exact weekendOuter_len _ wp.depart_dows wp.return_dows wp.max_pairs
      wp.max_trip_len_days _ [] (by simpa using h)

/-- C7 amended, witness: the invariants at the concrete pair
(2026-01-02, 2026-01-04) of the Thursday 2026-01-01 scenario, and the
cap bound there (two pairs, cap 6). -/
theorem weekend_invariants_witness :
    ((daysFromCivil ⟨2026, 1, 2⟩, daysFromCivil ⟨2026, 1, 4⟩) ∈
        expand_weekend_window ⟨0, 7, 6, 4, [4], [6, 0]⟩ ⟨2026, 1, 1⟩ ∧
      [4].contains (pyWeekday (daysFromCivil ⟨2026, 1, 2⟩)) = true ∧
      [6, 0].contains (pyWeekday (daysFromCivil ⟨2026, 1, 4⟩)) = true ∧
      daysFromCivil ⟨2026, 1, 2⟩ < daysFromCivil ⟨2026, 1, 4⟩) ∧
    ((1 : Int) ≤ 6 ∧
      ((expand_weekend_window ⟨0, 7, 6, 4, [4], [6, 0]⟩ ⟨2026, 1, 1⟩).length : Int) ≤ 6) := by
  constructor
  · have hm : (daysFromCivil ⟨2026, 1, 2⟩, daysFromCivil ⟨2026, 1, 4⟩) ∈
        expand_weekend_window ⟨0, 7, 6, 4, [4], [6, 0]⟩ ⟨2026, 1, 1⟩ := by decide
    exact ⟨hm, weekend_invariants.1 ⟨0, 7, 6, 4, [4], [6, 0]⟩ ⟨2026, 1, 1⟩ _ hm⟩
  · exact ⟨by norm_num,
      weekend_invariants.2 ⟨0, 7, 6, 4, [4], [6, 0]⟩ ⟨2026, 1, 1⟩ (by norm_num)⟩

end FlightAgent
